import Mathlib

/-
  Shallow embedding of the command buffer/queue subsystem of cncserver
  (src/src/cncserver.queue.js).

  The module mutates a handful of process-wide objects; here that mutable
  footprint is an explicit `ServerState` record threaded through the
  operations, and every outbound side effect (IPC messages to the executor
  process, socket pushes to observers, console diagnostics) is appended to an
  event log inside the state.  JavaScript objects keyed by content hashes
  become lists; `util._extend` shallow copies of flat records become plain
  value assignment, which coincides for the flat pen record copied here.
-/

namespace CNCServer

/-- The pen state record (cncserver.pen / cncserver.actualPen).  The queue
module copies it wholesale and reads only its `state` field (in the height
command builder); the fields are the flat scalars the copies carry. -/
structure Pen where
  x : Int
  y : Int
  z : Int
  state : Int
deriving DecidableEq

/-- The command stored inside a buffer item: the value `c` built by
`cncserver.run` before `addItem` (a detailed object, a direct serial string,
or an in-process callback function, the latter modelled as an opaque token
since only its identity matters to the queue). -/
inductive BufCommand where
  | absmove (x y : Int) (source : Pen)
  | absheight (z : Int) (source : Pen) (state : Int)
  | message (text : String)
  | callbackname (name : String)
  | serial (cmd : String)
  | callbackFn (token : Nat)
deriving DecidableEq

/-- A buffer item as assembled by `cncserver.run`: command, clamped duration,
and a copy of the intended pen state taken at enqueue time. -/
structure Item where
  command : BufCommand
  duration : Int
  pen : Pen
deriving DecidableEq

/-- Modelled from the spec: `cncserver.utils.getHash` is not under src/; the
spec requires an identifier derived deterministically from the item content,
stable for identical content and collision-free.  The canonical such
identifier is the content itself, so hashes are represented by the item value:
content-identical items collide (same hash), distinct contents never do. -/
def getHash (item : Item) : Item := item

/-- Ambient configuration read by the queue module: the bot command template
table (cncserver.bot.commands, template name to template string) and the
flipZToggleBit global config flag. -/
structure Cfg where
  commands : List (String × String)
  flipZToggleBit : Bool
deriving DecidableEq

/-- JavaScript truthiness of a template table entry: present and not the
empty string (used by `if (!cncserver.bot.commands.wait) ...` and by the
sanity check in `cmdstr`). -/
def truthy (cfg : Cfg) (name : String) : Bool :=
  match cfg.commands.lookup name with
  | none => false
  | some t => if t = "" then false else true

/-- JavaScript String.prototype.replace with a plain-string pattern replaces
only the first occurrence. -/
def replaceFirst (s pat rep : String) : String :=
  match s.splitOn pat with
  | [] => s
  | [r] => r
  | r :: rest => r ++ rep ++ String.intercalate pat rest

/-- `cncserver.buffer.cmdstr(name, values)`: look the template up in the bot
command table (empty string on a falsy name or missing/empty template) and
substitute each `%key` placeholder with its value. -/
def cmdstr (cfg : Cfg) (name : String) (values : List (String × String)) : String :=
  if name = "" then ""
  else
    match cfg.commands.lookup name with
    | none => ""
    | some out =>
      if out = "" then ""
      else values.foldl (fun acc kv => replaceFirst acc ("%" ++ kv.1) kv.2) out

/-- Modelled from the spec: `cncserver.utils.getPosChangeData` is not under
src/; per the spec it computes the positional delta from the source state to
the target coordinates and yields the substitution values for the movexy
template. -/
def getPosChangeData (source : Pen) (x y : Int) : List (String × String) :=
  [("x", toString (x - source.x)), ("y", toString (y - source.y))]

/-- Modelled from the spec: `cncserver.utils.getHeightChangeData` is not under
src/; per the spec it computes a height delta and the settle duration for it,
of which `render` only uses the duration field `d`. -/
def getHeightChangeData (source : Pen) (z : Int) : Nat :=
  (z - source.z).natAbs

/-- The value returned by `cncserver.buffer.render`: an array of serial
command strings, the untouched empty string (detailed objects whose type has
no render case, i.e. message/callbackname), or an array holding the raw
callback function. -/
inductive Rendered where
  | emptyStr
  | cmds (cs : List String)
  | fnArr (token : Nat)
deriving DecidableEq

/-- `cncserver.buffer.render(item)`: map a buffer item to pseudo serial
command strings using the bot templates. -/
def render (cfg : Cfg) (item : Item) : Rendered :=
  match item.command with
  | .absmove x y source =>
    .cmds [cmdstr cfg "movexy" (getPosChangeData source x y)]
  | .absheight z source _ =>
    let hd := getHeightChangeData source z
    let out := [cmdstr cfg "movez" [("z", toString z)]]
    let out :=
      if truthy cfg "togglez" then
        out ++ [cmdstr cfg "togglez" [("t", if cfg.flipZToggleBit then "1" else "0")]]
      else out
    .cmds (out ++ [cmdstr cfg "wait" [("d", toString hd)]])
  | .message _ => .emptyStr
  | .callbackname _ => .emptyStr
  | .serial c => .cmds [c]
  | .callbackFn t => .fnArr t

/-- One outbound side effect of the queue module: an IPC message to the
runner process, a socket push to clients, a console diagnostic, or an invoked
in-process callback. -/
inductive OutMsg where
  | ipcPause
  | ipcResume
  | ipcClear
  | ipcAdd (hash : Item) (commands : Rendered) (duration : Int)
  | ioBufferVars
  | ioBufferAdd (item : Item) (hash : Item)
  | ioPenUpdate
  | ioBufferRemove
  | ioBufferComplete
  | ioMessage (text : String)
  | ioCallback (name : String)
  | callbackInvoked (token : Nat)
  | logRemoving (hash : Option Item)
  | logMismatchError
deriving DecidableEq

/-- The mutable footprint of the queue module: `cncserver.buffer.dataSet`
(object keyed by hash, here the list of stored items since hash = content),
`cncserver.buffer.data` (order array of hashes, front = newest via unshift,
back = oldest via pop), the paused flag, the intended pen state
`cncserver.pen`, the confirmed pen state `cncserver.actualPen`, and the
ordered log of outbound side effects. -/
structure ServerState where
  dataSet : List Item
  data : List Item
  paused : Bool
  pen : Pen
  actualPen : Pen
  log : List OutMsg
deriving DecidableEq

/-- JavaScript object key assignment `dataSet[hash] = item`: since the key is
the item content, assigning an already-present key overwrites it with an
equal value, so the stored set is unchanged; a fresh key is inserted. -/
def setInsert (s : List Item) (i : Item) : List Item :=
  if i ∈ s then s else i :: s

/-- `cncserver.buffer.addItem(item)`: compute the hash, unshift it onto the
order array, store the item under the hash, send the rendered commands to the
runner over IPC, and alert clients. -/
def addItem (cfg : Cfg) (s : ServerState) (item : Item) : ServerState :=
  let hash := getHash item
  { s with
    data := hash :: s.data
    dataSet := setInsert s.dataSet hash
    log := s.log ++ [.ipcAdd hash (render cfg item) item.duration, .ioBufferAdd item hash] }

/-- The side effects of `cncserver.buffer.trigger(item)`: invoke a function
command, or forward message/callbackname commands to clients; all other
commands trigger nothing. -/
def triggerMsgs (item : Item) : List OutMsg :=
  match item.command with
  | .callbackFn t => [.callbackInvoked t]
  | .message text => [.ioMessage text]
  | .callbackname n => [.ioCallback n]
  | _ => []

/-- Outcome of `cncserver.buffer.removeItem()`: an item was processed; the
popped hash was falsy (empty buffer) and only the console diagnostics were
emitted; or the popped hash had no dataSet entry and the unguarded
`item.pen` access threw a TypeError out of the function (`crash`). -/
inductive RemoveResult where
  | removed (item : Item)
  | emptyLog
  | crash
deriving DecidableEq

/-- `cncserver.buffer.removeItem()`: pop the oldest hash off the order array
and log it; on a falsy hash print the mismatch error and stop; otherwise look
the item up, copy its pen snapshot into actualPen, push a pen update, trigger
non-serial commands, delete the dataSet entry and push a buffer-remove
update.  When the popped hash has no dataSet entry the lookup yields
undefined and the `item.pen` access throws: the state at the throw has the
hash already popped and the console line already printed. -/
def removeItem (s : ServerState) : ServerState × RemoveResult :=
  match s.data.getLast? with
  | none =>
    ({ s with log := s.log ++ [.logRemoving none, .logMismatchError] }, .emptyLog)
  | some hash =>
    if hash ∈ s.dataSet then
      ({ s with
          data := s.data.dropLast
          dataSet := s.dataSet.erase hash
          actualPen := hash.pen
          log := s.log ++ [.logRemoving (some hash), .ioPenUpdate]
                 ++ triggerMsgs hash ++ [.ioBufferRemove] },
       .removed hash)
    else
      ({ s with data := s.data.dropLast, log := s.log ++ [.logRemoving (some hash)] },
       .crash)

/-- `cncserver.buffer.clear()` (the second definition in the file, which
overrides the first at module load): empty the order array and the dataSet,
reset the intended pen to a copy of the actual robot pen, notify the runner
and push a full buffer update. -/
def clear (s : ServerState) : ServerState :=
  { s with
    data := []
    dataSet := []
    pen := s.actualPen
    log := s.log ++ [.ipcClear, .ioBufferComplete] }

/-- `cncserver.buffer.pause()`: set the paused flag, message the runner, push
buffer vars to clients — unconditionally on every call. -/
def pause (s : ServerState) : ServerState :=
  { s with paused := true, log := s.log ++ [.ipcPause, .ioBufferVars] }

/-- `cncserver.buffer.resume()`: clear the paused flag, message the runner,
push buffer vars to clients — unconditionally on every call. -/
def resume (s : ServerState) : ServerState :=
  { s with paused := false, log := s.log ++ [.ipcResume, .ioBufferVars] }

/-- `cncserver.buffer.toggle(setPause)`: pause only when not paused, resume
only when paused; otherwise do nothing at all. -/
def toggle (s : ServerState) (setPause : Bool) : ServerState :=
  if setPause && !s.paused then pause s
  else if !setPause && s.paused then resume s
  else s

/-- Modelled from the spec: the modules that advance the intended pen state
(cncserver.pen) before calling `run` are not under src/; per the spec the
intended state is mutated in place on every enqueue path, modelled here as a
direct assignment of a new pen value. -/
def setPen (s : ServerState) (p : Pen) : ServerState :=
  { s with pen := p }

/-- First duration sanity step of `cncserver.run`:
`duration = !duration ? 1 : Math.abs(parseInt(duration))` — a missing or zero
(falsy) duration becomes 1, anything else its absolute value (parseInt is the
identity on integers). -/
def durStep1 : Option Int → Int
  | none => 1
  | some v => if v = 0 then 1 else |v|

/-- Both duration sanity steps of `cncserver.run`: the first step followed by
`duration = duration <= 0 ? 1 : duration`. -/
def clampDuration (duration : Option Int) : Int :=
  if durStep1 duration ≤ 0 then 1 else durStep1 duration

/-- The command/data argument pairs accepted by `cncserver.run`; `unknown`
covers every command string outside the supported set (the switch default). -/
inductive Command where
  | move (x y : Int) (source : Pen)
  | height (z : Int) (source : Pen)
  | message (text : String)
  | callbackname (name : String)
  | wait
  | custom (cmd : String)
  | callback (token : Nat)
  | unknown (name : String)
deriving DecidableEq

/-- Whether a command hits the default branch of the switch in
`cncserver.run`. -/
def Command.isUnknown : Command → Bool
  | .unknown _ => true
  | _ => false

/-- The switch statement of `cncserver.run` building the buffer command `c`:
`none` is an early `return false` (unknown command, or a wait command when
the bot declares no truthy wait template). -/
def buildCommand (cfg : Cfg) (s : ServerState) (command : Command) (d : Int) :
    Option BufCommand :=
  match command with
  | .move x y source => some (.absmove x y source)
  | .height z source => some (.absheight z source s.pen.state)
  | .message text => some (.message text)
  | .callbackname n => some (.callbackname n)
  | .wait =>
    if truthy cfg "wait" then some (.serial (cmdstr cfg "wait" [("d", toString d)]))
    else none
  | .custom c => some (.serial c)
  | .callback t => some (.callbackFn t)
  | .unknown _ => none

/-- `cncserver.run(command, data, duration)`: clamp the duration, build the
buffer command via the switch, and on success add the item — command, clamped
duration, and a copy of the current intended pen state — to the buffer,
returning true; on an early return nothing is touched and false comes back. -/
def run (cfg : Cfg) (s : ServerState) (command : Command) (duration : Option Int) :
    ServerState × Bool :=
  match buildCommand cfg s command (clampDuration duration) with
  | none => (s, false)
  | some c =>
    (addItem cfg s { command := c, duration := clampDuration duration, pen := s.pen }, true)

/-- Enqueue a list of items through `addItem`, oldest first. -/
def addItems (cfg : Cfg) (s : ServerState) (items : List Item) : ServerState :=
  items.foldl (addItem cfg) s

/-- Run `removeItem` n times, collecting the results in call order. -/
def removeN : ServerState → Nat → ServerState × List RemoveResult
  | s, 0 => (s, [])
  | s, n + 1 =>
    let p := removeItem s
    let q := removeN p.1 n
    (q.1, p.2 :: q.2)

/-- The items actually processed (confirmed into actualPen) by a sequence of
removal results, in order. -/
def processedOf (rs : List RemoveResult) : List Item :=
  rs.filterMap fun r =>
    match r with
    | .removed i => some i
    | _ => none

/-- A concrete bot configuration declaring the usual templates. -/
def cfg0 : Cfg :=
  { commands := [("movexy", "SM %x,%y"), ("movez", "SP %z"), ("wait", "W %d")]
    flipZToggleBit := false }

/-- A concrete bot configuration declaring no wait template. -/
def cfgNoWait : Cfg :=
  { commands := [("movexy", "SM %x,%y"), ("movez", "SP %z")]
    flipZToggleBit := false }

/-- The origin pen record. -/
def pen0 : Pen := { x := 0, y := 0, z := 0, state := 0 }

/-- The queue module state right after module load: empty buffer, not
paused, intended and actual pen in sync, nothing sent yet. -/
def initState : ServerState :=
  { dataSet := [], data := [], paused := false, pen := pen0, actualPen := pen0, log := [] }

/-- A concrete buffer item used by witnesses and counterexamples. -/
def itemA : Item := { command := .message "hello", duration := 5, pen := pen0 }

/-- A second concrete buffer item, distinct in content from itemA. -/
def itemB : Item :=
  { command := .serial "SM 3,4", duration := 20, pen := { x := 3, y := 4, z := 0, state := 0 } }

/-- A state holding exactly itemA, consistently stored. -/
def stateWithA : ServerState := { initState with data := [itemA], dataSet := [itemA] }

/-- A state holding exactly itemB, consistently stored. -/
def stateWithB : ServerState := { initState with data := [itemB], dataSet := [itemB] }

/-- A consistent two-item state: itemA is the oldest (back of the order
array), itemB the newest. -/
def twoItemState : ServerState :=
  { initState with data := [itemB, itemA], dataSet := [itemA, itemB] }

/-- A corrupted state: the hash of itemA sits in the order array but the
dataSet has no entry for it (the desynchronization case of removeItem). -/
def desyncState : ServerState := { initState with data := [itemA] }

/-- The initial state with the paused flag set. -/
def pausedState : ServerState := { initState with paused := true }

/-
  Helper lemmas shared by the claim theorems.
-/

/-- One addItem call prepends the hash to the order array. -/
theorem addItem_data (cfg : Cfg) (s : ServerState) (i : Item) :
    (addItem cfg s i).data = i :: s.data := by
  simp [addItem, getHash]

/-- Membership in the dataSet is preserved by addItem, and the added item is
a member afterwards. -/
theorem addItem_mem_dataSet (cfg : Cfg) (s : ServerState) (i X : Item)
    (h : X ∈ s.dataSet ∨ X = i) : X ∈ (addItem cfg s i).dataSet := by
  simp only [addItem, getHash, setInsert]
  split
  · rcases h with h | h
    · exact h
    · subst h; assumption
  · rcases h with h | h
    · exact List.mem_cons_of_mem _ h
    · subst h; exact List.mem_cons_self _ _

/-- A fold of addItem over a list of items reverses the list onto the front
of the order array. -/
theorem addItems_data (cfg : Cfg) :
    ∀ (items : List Item) (s : ServerState),
      (addItems cfg s items).data = items.reverse ++ s.data := by
  intro items
  induction items with
  | nil => intro s; simp [addItems]
  | cons i is ih =>
    intro s
    have h1 : addItems cfg s (i :: is) = addItems cfg (addItem cfg s i) is := rfl
    rw [h1, ih, addItem_data]
    simp

/-- Every previously stored item and every freshly enqueued item is in the
dataSet after a fold of addItem. -/
theorem addItems_mem_dataSet (cfg : Cfg) :
    ∀ (items : List Item) (s : ServerState) (X : Item),
      (X ∈ s.dataSet ∨ X ∈ items) → X ∈ (addItems cfg s items).dataSet := by
  intro items
  induction items with
  | nil =>
    intro s X h
    simpa [addItems] using h.resolve_right (by simp)
  | cons i is ih =>
    intro s X h
    have h1 : addItems cfg s (i :: is) = addItems cfg (addItem cfg s i) is := rfl
    rw [h1]
    rcases h with h | h
    · exact ih _ X (Or.inl (addItem_mem_dataSet cfg s i X (Or.inl h)))
    · rcases List.mem_cons.mp h with h | h
      · exact ih _ X (Or.inl (addItem_mem_dataSet cfg s i X (Or.inr h)))
      · exact ih _ X (Or.inr h)

/-- Computation of removeItem on a state whose order array ends in a stored
hash: the oldest item is processed and removed. -/
theorem removeItem_eq_of_last (s : ServerState) (d : List Item) (X : Item)
    (hdata : s.data = d ++ [X]) (hmem : X ∈ s.dataSet) :
    removeItem s =
      ({ s with
          data := d
          dataSet := s.dataSet.erase X
          actualPen := X.pen
          log := s.log ++ [.logRemoving (some X), .ioPenUpdate]
                 ++ triggerMsgs X ++ [.ioBufferRemove] },
       .removed X) := by
  have hlast : s.data.getLast? = some X := by rw [hdata]; simp
  have hdrop : s.data.dropLast = d := by rw [hdata]; simp
  simp [removeItem, hlast, hdrop, hmem]

/-- Processing results of a removal that succeeded: the processed list gains
the removed item at the front. -/
theorem processedOf_cons_removed (i : Item) (rs : List RemoveResult) :
    processedOf (.removed i :: rs) = i :: processedOf rs := rfl

/-- Draining a consistent buffer: when the order array is a duplicate-free
list whose hashes are all stored, running removeItem once per entry processes
the entries back to front (i.e. in enqueue order). -/
theorem removeN_drain :
    ∀ (l : List Item) (s : ServerState),
      s.data = l → l.Nodup → (∀ x ∈ l, x ∈ s.dataSet) →
      processedOf (removeN s l.length).2 = l.reverse := by
  intro l
  induction l using List.reverseRecOn with
  | nil =>
    intro s hdata _ _
    simp [removeN, processedOf]
  | append_singleton l a ih =>
    intro s hdata hnd hmem
    have hnd' : l.Nodup ∧ a ∉ l := by
      rw [List.nodup_append] at hnd
      refine ⟨hnd.1, fun hal => ?_⟩
      exact hnd.2.2 hal (List.mem_singleton_self a)
    have hamem : a ∈ s.dataSet := hmem a (by simp)
    obtain ⟨s1, hs1d, hs1s, hrem⟩ :
        ∃ s1 : ServerState, s1.data = l ∧ s1.dataSet = s.dataSet.erase a ∧
          removeItem s = (s1, .removed a) :=
      ⟨_, rfl, rfl, removeItem_eq_of_last s l a hdata hamem⟩
    have hlen : (l ++ [a]).length = l.length + 1 := by simp
    rw [hlen]
    have hstep :
        removeN s (l.length + 1) =
          ((removeN (removeItem s).1 l.length).1,
            (removeItem s).2 :: (removeN (removeItem s).1 l.length).2) := rfl
    rw [hstep, hrem]
    have hmem1 : ∀ x ∈ l, x ∈ s1.dataSet := by
      intro x hx
      rw [hs1s]
      have hxa : x ≠ a := fun hxa => hnd'.2 (by rw [← hxa]; exact hx)
      exact (List.mem_erase_of_ne hxa).mpr (hmem x (by simp [hx]))
    rw [processedOf_cons_removed, ih s1 hs1d hnd'.1 hmem1]
    simp

/-
  Claim theorems.
-/

/-- Claim C1 (amended): for every sequence of n enqueues (addItem calls via
addItems) of items with pairwise-distinct content — hence pairwise-distinct
content-derived ids — starting from an empty buffer, followed by n dequeues
(removeItem calls), the dequeues process the items in exactly the order
E1..En: the oldest-enqueued item is always the one removed next. -/
theorem fifo_ordering (cfg : Cfg) (s : ServerState) (items : List Item)
    (hdata : s.data = []) (hnd : items.Nodup) :
    processedOf (removeN (addItems cfg s items) items.length).2 = items := by
  have h1 : (addItems cfg s items).data = items.reverse := by
    rw [addItems_data, hdata, List.append_nil]
  have h2 : ∀ x ∈ items.reverse, x ∈ (addItems cfg s items).dataSet := by
    intro x hx
    exact addItems_mem_dataSet cfg items s x (Or.inr (List.mem_reverse.mp hx))
  have h3 := removeN_drain items.reverse (addItems cfg s items) h1
    (List.nodup_reverse.mpr hnd) h2
  rw [List.length_reverse, List.reverse_reverse] at h3
  exact h3

/-- Claim C1 witness: two distinct items enqueued from the empty initial
state are processed in enqueue order by two dequeues. -/
theorem fifo_ordering_witness :
    initState.data = [] ∧ [itemA, itemB].Nodup ∧
    processedOf (removeN (addItems cfg0 initState [itemA, itemB]) 2).2 = [itemA, itemB] :=
  ⟨rfl, by decide, fifo_ordering cfg0 initState [itemA, itemB] rfl (by decide)⟩

/-- Claim C1 counterexample: two content-identical enqueues from the empty
buffer followed by two dequeues do not process the items in order E1 E2 — the
second enqueue overwrote the single stored entry, so the second dequeue finds
no entry for the popped hash and throws instead of processing the item. -/
theorem fifo_duplicate_counterexample :
    processedOf (removeN (addItems cfg0 initState [itemA, itemA]) 2).2 ≠ [itemA, itemA] := by
  decide

/-- Claim C2 (confirmed): for every buffer item X present in the buffer
(stored under its hash, its hash the oldest entry of the order array), the
dequeue that removes X sets the confirmed pen state cncserver.actualPen to
exactly the pen snapshot stored in X at enqueue time, whatever the current
intended pen state cncserver.pen is. -/
theorem confirmed_state_correct (s : ServerState) (X : Item)
    (hlast : s.data.getLast? = some X) (hmem : X ∈ s.dataSet) :
    (removeItem s).1.actualPen = X.pen := by
  simp [removeItem, hlast, hmem]

/-- Claim C2 witness: dequeuing the concrete one-item state confirms that
item's pen snapshot. -/
theorem confirmed_state_correct_witness :
    stateWithB.data.getLast? = some itemB ∧ itemB ∈ stateWithB.dataSet ∧
    (removeItem stateWithB).1.actualPen = itemB.pen :=
  ⟨by decide, by decide, confirmed_state_correct stateWithB itemB (by decide) (by decide)⟩

/-- Claim C3 (code bug): enqueuing a content-identical item a second time is
not rejected and does not keep the one-to-one correspondence between the
order array and the dataSet — the hash appears twice in the order array while
the dataSet holds a single (silently overwritten) entry for it. -/
theorem duplicate_enqueue_overwrites :
    (addItems cfg0 initState [itemA, itemA]).data = [itemA, itemA] ∧
    (addItems cfg0 initState [itemA, itemA]).dataSet = [itemA] ∧
    (addItems cfg0 initState [itemA, itemA]).data.count itemA = 2 := by
  decide

/-- Claim C4 (amended): cncserver.run stores duration 1 for a missing or zero
duration, the absolute value for any other integer duration (so a negative
duration -d is stored as d, not as 1), and the stored duration is always at
least 1; on every successful run the newest buffer item carries exactly the
clamped duration. -/
theorem duration_clamp_amended (cfg : Cfg) (s : ServerState) (command : Command)
    (duration : Option Int) :
    clampDuration none = 1 ∧
    clampDuration (some 0) = 1 ∧
    (∀ v : Int, v ≠ 0 → clampDuration (some v) = |v|) ∧
    1 ≤ clampDuration duration ∧
    ((run cfg s command duration).2 = true →
      ((run cfg s command duration).1.data.map Item.duration).head? =
        some (clampDuration duration)) := by
  refine ⟨by decide, by decide, ?_, ?_, ?_⟩
  · intro v hv
    have h0 : durStep1 (some v) = |v| := by simp only [durStep1, if_neg hv]
    have habs : ¬ |v| ≤ 0 := by simpa using hv
    unfold clampDuration
    rw [h0, if_neg habs]
  · unfold clampDuration
    split
    · omega
    · omega
  · intro hsuc
    unfold run at hsuc ⊢
    cases hb : buildCommand cfg s command (clampDuration duration) with
    | none => rw [hb] at hsuc; exact Bool.noConfusion hsuc
    | some c => simp [addItem_data]

/-- Claim C4 witness: a run with duration -5 stores |-5| = 5 as the newest
item's duration. -/
theorem duration_clamp_amended_witness :
    clampDuration (some (-5)) = |(-5 : Int)| ∧
    ((run cfg0 initState (Command.message "m") (some (-5))).1.data.map Item.duration).head? =
      some (clampDuration (some (-5))) :=
  ⟨(duration_clamp_amended cfg0 initState (Command.message "m") (some (-5))).2.2.1
      (-5) (by decide),
   (duration_clamp_amended cfg0 initState (Command.message "m") (some (-5))).2.2.2.2
      (by decide)⟩

/-- Claim C4 counterexample: calling run with the negative duration -5 stores
duration 5, not 1 as the claim states for negative durations. -/
theorem duration_negative_counterexample :
    ((run cfg0 initState (Command.message "m") (some (-5))).1.data.map Item.duration) = [5] ∧
    ((run cfg0 initState (Command.message "m") (some (-5))).1.data.map Item.duration) ≠ [1] := by
  decide

/-- Claim C5 (confirmed): for every item X stored in the buffer, neither a
later run call (which takes its own copy of the intended pen state) nor a
direct mutation of the intended pen state changes the stored entry for X:
X is still stored unchanged afterwards, its pen snapshot included. -/
theorem snapshot_immutability (cfg : Cfg) (s : ServerState) (command : Command)
    (duration : Option Int) (p : Pen) (X : Item) (h : X ∈ s.dataSet) :
    X ∈ (run cfg s command duration).1.dataSet ∧ X ∈ (setPen s p).dataSet := by
  constructor
  · unfold run
    cases buildCommand cfg s command (clampDuration duration) with
    | none => exact h
    | some c => exact addItem_mem_dataSet cfg s _ X (Or.inl h)
  · exact h

/-- Claim C5 witness: itemA stays stored, snapshot and all, across a later
move enqueue and across a direct intended-pen mutation. -/
theorem snapshot_immutability_witness :
    itemA ∈ stateWithA.dataSet ∧
    itemA ∈ (run cfg0 stateWithA (Command.move 9 9 pen0) (some 10)).1.dataSet ∧
    itemA ∈ (setPen stateWithA { pen0 with x := 42 }).dataSet :=
  ⟨by decide,
   (snapshot_immutability cfg0 stateWithA (Command.move 9 9 pen0) (some 10)
      { pen0 with x := 42 } itemA (by decide)).1,
   (snapshot_immutability cfg0 stateWithA (Command.move 9 9 pen0) (some 10)
      { pen0 with x := 42 } itemA (by decide)).2⟩

/-- Claim C6 (confirmed): after clear() from any state the order array and
the dataSet are both empty and the intended pen state equals the confirmed
pen state (clear copies actualPen into pen in one step; no intermediate state
is observable in the embedding, matching the single-threaded source). -/
theorem clear_semantics (s : ServerState) :
    (clear s).data = [] ∧ (clear s).dataSet = [] ∧ (clear s).pen = (clear s).actualPen := by
  simp [clear]

/-- Claim C7 (amended): cncserver.run returns false exactly when the command
kind is unknown or when the command is wait and the bot command table has no
truthy wait template; whenever it returns false the state — buffer contents,
pen states, and the outbound log — is completely untouched. -/
theorem run_failure_amended (cfg : Cfg) (s : ServerState) (command : Command)
    (duration : Option Int) :
    ((run cfg s command duration).2 = false ↔
      (command.isUnknown = true ∨ (command = Command.wait ∧ truthy cfg "wait" = false))) ∧
    ((run cfg s command duration).2 = false → (run cfg s command duration).1 = s) := by
  cases command with
  | wait =>
    cases htr : truthy cfg "wait" with
    | false => simp [run, buildCommand, Command.isUnknown, htr]
    | true => simp [run, buildCommand, Command.isUnknown, htr]
  | move x y source => simp [run, buildCommand, Command.isUnknown]
  | height z source => simp [run, buildCommand, Command.isUnknown]
  | message text => simp [run, buildCommand, Command.isUnknown]
  | callbackname n => simp [run, buildCommand, Command.isUnknown]
  | custom c => simp [run, buildCommand, Command.isUnknown]
  | callback t => simp [run, buildCommand, Command.isUnknown]
  | unknown n => simp [run, buildCommand, Command.isUnknown]

/-- Claim C7 witness: an unknown command makes run return false and leave the
initial state untouched. -/
theorem run_failure_amended_witness :
    (run cfg0 initState (Command.unknown "bogus") none).2 = false ∧
    (run cfg0 initState (Command.unknown "bogus") none).1 = initState :=
  ⟨(run_failure_amended cfg0 initState (Command.unknown "bogus") none).1.mpr (Or.inl rfl),
   (run_failure_amended cfg0 initState (Command.unknown "bogus") none).2 (by decide)⟩

/-- Claim C7 counterexample: with a bot configuration that declares no wait
template, run returns false for the supported command kind wait, so false is
not returned only for unknown kinds. -/
theorem run_wait_false_counterexample :
    (run cfgNoWait initState Command.wait none).2 = false ∧
    Command.isUnknown Command.wait = false := by
  decide

/-- Claim C8 (code bug, evaluated at the failing input): a dequeue whose
popped hash is in the order array but has no dataSet entry reaches the
unguarded item.pen access and throws a TypeError out of removeItem (the crash
outcome) instead of the loud non-throwing error report the claim requires;
the empty-store half of the claim does hold — that dequeue only prints the
diagnostics and leaves every state component unchanged. -/
theorem removeItem_desync_crash :
    (removeItem desyncState).2 = RemoveResult.crash ∧
    (removeItem initState).2 = RemoveResult.emptyLog ∧
    (removeItem initState).1.data = initState.data ∧
    (removeItem initState).1.dataSet = initState.dataSet ∧
    (removeItem initState).1.actualPen = initState.actualPen ∧
    (removeItem initState).1.pen = initState.pen ∧
    (removeItem initState).1.paused = initState.paused := by
  decide

/-- Claim C9 counterexample: calling pause twice from the initial state does
not produce the same observable state as calling it once — the second call
re-sends the pause IPC message and the buffer-vars push, so the outbound
notification logs differ. -/
theorem pause_twice_counterexample :
    pause (pause initState) ≠ pause initState := by
  decide

/-- Claim C9 (amended): a second consecutive pause() leaves the paused flag,
buffer contents and pen states exactly as after the first but re-sends the
pause notifications (and likewise for resume()), so only toggle() is a true
no-op: toggling to the state already held changes nothing at all, outbound
notifications included. -/
theorem pause_resume_idempotence_amended (s : ServerState) :
    ((pause (pause s)).paused = (pause s).paused ∧
     (pause (pause s)).data = (pause s).data ∧
     (pause (pause s)).dataSet = (pause s).dataSet ∧
     (pause (pause s)).pen = (pause s).pen ∧
     (pause (pause s)).actualPen = (pause s).actualPen ∧
     (pause (pause s)).log = (pause s).log ++ [OutMsg.ipcPause, OutMsg.ioBufferVars]) ∧
    ((resume (resume s)).paused = (resume s).paused ∧
     (resume (resume s)).data = (resume s).data ∧
     (resume (resume s)).dataSet = (resume s).dataSet ∧
     (resume (resume s)).pen = (resume s).pen ∧
     (resume (resume s)).actualPen = (resume s).actualPen ∧
     (resume (resume s)).log = (resume s).log ++ [OutMsg.ipcResume, OutMsg.ioBufferVars]) ∧
    (s.paused = true → toggle s true = s) ∧
    (s.paused = false → toggle s false = s) := by
  refine ⟨⟨rfl, rfl, rfl, rfl, rfl, rfl⟩, ⟨rfl, rfl, rfl, rfl, rfl, rfl⟩, ?_, ?_⟩
  · intro h; simp [toggle, h]
  · intro h; simp [toggle, h]

/-- Claim C9 witness: toggling an already-paused state to paused is a complete
no-op. -/
theorem pause_resume_idempotence_amended_witness :
    pausedState.paused = true ∧ toggle pausedState true = pausedState :=
  ⟨rfl, (pause_resume_idempotence_amended pausedState).2.2.1 rfl⟩

/-- Claim C10 (confirmed): a successful dequeue on a consistent buffer (the
oldest hash occurs once in the order array and is stored) removes exactly the
oldest item: it is the processed result, its order-array entry is popped and
its dataSet entry erased, every other stored item is still stored, the
remaining order is unchanged, the paused flag and the intended pen are
untouched, and the confirmed pen becomes the removed item's snapshot. -/
theorem dequeue_frame (s : ServerState) (d : List Item) (X : Item)
    (hdata : s.data = d ++ [X]) (hX : X ∉ d) (hmem : X ∈ s.dataSet) :
    (removeItem s).2 = RemoveResult.removed X ∧
    (removeItem s).1.data = d ∧
    X ∉ (removeItem s).1.data ∧
    (removeItem s).1.dataSet = s.dataSet.erase X ∧
    (∀ Y : Item, Y ≠ X → (Y ∈ (removeItem s).1.dataSet ↔ Y ∈ s.dataSet)) ∧
    (removeItem s).1.paused = s.paused ∧
    (removeItem s).1.pen = s.pen ∧
    (removeItem s).1.actualPen = X.pen := by
  have hrem := removeItem_eq_of_last s d X hdata hmem
  rw [hrem]
  refine ⟨rfl, rfl, hX, rfl, ?_, rfl, rfl, rfl⟩
  intro Y hY
  exact List.mem_erase_of_ne hY

/-- Claim C10 witness: dequeuing the consistent two-item state removes itemA
only, keeps itemB in place, and leaves the paused flag alone. -/
theorem dequeue_frame_witness :
    twoItemState.data = [itemB] ++ [itemA] ∧ itemA ∉ [itemB] ∧ itemA ∈ twoItemState.dataSet ∧
    (removeItem twoItemState).2 = RemoveResult.removed itemA ∧
    (removeItem twoItemState).1.data = [itemB] ∧
    (removeItem twoItemState).1.paused = twoItemState.paused :=
  ⟨by decide, by decide, by decide,
   (dequeue_frame twoItemState [itemB] itemA (by decide) (by decide) (by decide)).1,
   (dequeue_frame twoItemState [itemB] itemA (by decide) (by decide) (by decide)).2.1,
   (dequeue_frame twoItemState [itemB] itemA (by decide) (by decide) (by decide)).2.2.2.2.2.1⟩

end CNCServer
